import Mathlib

/-
Verification of the host-side control layer of the `p_tr` progressive
renderer (sources: src/main.rs, src/math/mod.rs, src/render/mod.rs).

The Rust `f32` arithmetic of the camera/vector code is embedded over the
real numbers `ℝ` (the ideal-arithmetic reading of the floating-point
code); the `u32` frame counter is embedded as `ℕ` with explicit
wrap-around `% 2 ^ 32` at every point where the source performs `u32`
addition.  GPU objects (textures, bind groups, queues) carry no state
that the verified claims depend on beyond the indices of the two
accumulation collectors, which are recorded per pass.
-/

namespace PTr

/-! ### src/math/mod.rs -/

/-- `Vec2<f32>` (src/math/mod.rs, `impl_vecn!(Vec2, x, y)`), over `ℝ`. -/
structure Vec2f where
  x : ℝ
  y : ℝ


/-- `Vec3<f32>` (src/math/mod.rs, `impl_vecn!(Vec3, x, y, z)`), over `ℝ`. -/
structure Vec3f where
  x : ℝ
  y : ℝ
  z : ℝ


/-- `Ext2<u32>` (src/math/mod.rs). -/
structure Ext2u where
  w : ℕ
  h : ℕ
deriving DecidableEq

/-- `Ext2<f32>` (src/math/mod.rs), over `ℝ`. -/
structure Ext2f where
  w : ℝ
  h : ℝ


/-- Componentwise `Add` for `Vec3` (src/math/mod.rs, `impl_vecn_binary_operator!(Add, ...)`). -/
def Vec3f.add (a b : Vec3f) : Vec3f := ⟨a.x + b.x, a.y + b.y, a.z + b.z⟩

/-- Componentwise `Sub` for `Vec3` (src/math/mod.rs, `impl_vecn_binary_operator!(Sub, ...)`). -/
def Vec3f.sub (a b : Vec3f) : Vec3f := ⟨a.x - b.x, a.y - b.y, a.z - b.z⟩

/-- Scalar `Mul<T>` for `Vec3` (src/math/mod.rs, the `Mul<T> for Vec3<T>` instance:
each component multiplied by the scalar on the right). -/
def Vec3f.smul (a : Vec3f) (t : ℝ) : Vec3f := ⟨a.x * t, a.y * t, a.z * t⟩

/-- Cross product: `impl Rem for Vec3f` (src/math/mod.rs lines 123-132). -/
def Vec3f.cross (a b : Vec3f) : Vec3f :=
  ⟨a.y * b.z - a.z * b.y, a.z * b.x - a.x * b.z, a.x * b.y - a.y * b.x⟩

/-- Dot product: `impl BitXor for Vec3f` (src/math/mod.rs lines 140-145). -/
def Vec3f.dot (a b : Vec3f) : ℝ := a.x * b.x + a.y * b.y + a.z * b.z

/-- `Vec3f::length2` (src/math/mod.rs): `*self ^ *self`. -/
def Vec3f.length2 (v : Vec3f) : ℝ := v.dot v

/-- `Vec3f::length` (src/math/mod.rs): `self.length2().sqrt()`. -/
noncomputable def Vec3f.length (v : Vec3f) : ℝ := Real.sqrt v.length2

/-- `Vec3f::normalized` (src/math/mod.rs): `*self / self.length()`, the
`Div<T>` instance dividing each component by the scalar. -/
noncomputable def Vec3f.normalized (v : Vec3f) : Vec3f :=
  ⟨v.x / v.length, v.y / v.length, v.z / v.length⟩

/-- Dot product: `impl BitXor for Vec2f` (src/math/mod.rs lines 147-152). -/
def Vec2f.dot (a b : Vec2f) : ℝ := a.x * b.x + a.y * b.y

/-- `Vec2f::length2` (src/math/mod.rs). -/
def Vec2f.length2 (v : Vec2f) : ℝ := v.dot v

/-- `Vec2f::length` (src/math/mod.rs). -/
noncomputable def Vec2f.length (v : Vec2f) : ℝ := Real.sqrt v.length2

/-! ### src/main.rs: `Camera` -/

/-- `struct Camera` (src/main.rs lines 10-17).  The Rust field `at` is a
Lean keyword and is rendered `at_`. -/
structure Camera where
  location : Vec3f
  at_ : Vec3f
  direction : Vec3f
  right : Vec3f
  up : Vec3f

/-- `Camera::new` (src/main.rs lines 20-28). -/
def Camera.new : Camera where
  location := ⟨0, 0, 1⟩
  at_ := ⟨0, 0, 0⟩
  direction := ⟨0, 0, -1⟩
  right := ⟨1, 0, 0⟩
  up := ⟨0, 1, 0⟩

/-- `Camera::set` (src/main.rs lines 30-36). -/
noncomputable def Camera.set (_cam : Camera) (location at_ approx_up : Vec3f) : Camera :=
  let direction := (at_.sub location).normalized
  let right := (direction.cross approx_up).normalized
  let up := (right.cross direction).normalized
  { location := location, at_ := at_, direction := direction, right := right, up := up }

/-! ### src/render/mod.rs -/

/-- `struct CameraDescriptor` (src/render/mod.rs lines 5-13). -/
structure CameraDescriptor where
  location : Vec3f
  at_ : Vec3f
  dir : Vec3f
  right : Vec3f
  up : Vec3f
  projection_extent : Ext2f
  near : ℝ

/-- `struct CameraData` (src/render/mod.rs lines 15-26), the packed
camera uniform record written by `set_camera`. -/
structure CameraData where
  location : Vec3f
  _pad0 : ℝ
  dir : Vec3f
  near : ℝ
  right : Vec3f
  projection_width : ℝ
  up : Vec3f
  projection_height : ℝ

/-- `2 ^ 32`, the modulus of the `u32` frame counter. -/
def U32 : ℕ := 2 ^ 32

/-- Read-collector index (src/render/mod.rs line 362):
`self.static_frame_index as usize & 1`. -/
def readIndex (n : ℕ) : ℕ := n &&& 1

/-- Write-collector index (src/render/mod.rs line 363):
`(self.static_frame_index + 1) as usize & 1`; the `u32` addition wraps
at `2 ^ 32` before the cast. -/
def writeIndex (n : ℕ) : ℕ := ((n + 1) % U32) &&& 1

/-- The collector indices bound by the two passes of one `Render::render`
call: `selected_at` is the counter value the selection was computed from
(also the `static_frame_index` written into the system uniform, line 354),
`accumulate_read` the bind of the first pass (line 379), `accumulate_target`
its color attachment (line 372), `present_sampled` the bind of the second,
presenting pass (line 398). -/
structure PassInfo where
  selected_at : ℕ
  accumulate_read : ℕ
  accumulate_target : ℕ
  present_sampled : ℕ
deriving DecidableEq

/-- `struct Render` (src/render/mod.rs lines 49-63): the state the claims
depend on — the frame counter, the collector extent, and the camera
uniform contents.  Pipelines, layouts and the GPU kernel are stateless
collaborators here. -/
structure Render where
  static_frame_index : ℕ
  extent : Ext2u
  camera_buffer : CameraData

/-- `Render::resize` (src/render/mod.rs lines 313-319): zeroes the frame
counter, recreates both collectors at the new extent, reconfigures the
surface. -/
def Render.resize (r : Render) (new_extent : Ext2u) : Render :=
  { r with static_frame_index := 0, extent := new_extent }

/-- `Render::set_camera` (src/render/mod.rs lines 321-335): writes the
packed camera record to the camera uniform buffer and zeroes the frame
counter, unconditionally. -/
def Render.set_camera (r : Render) (d : CameraDescriptor) : Render :=
  { r with
    camera_buffer :=
      { _pad0 := 0
        dir := d.dir
        location := d.location
        near := d.near
        projection_height := d.projection_extent.h
        projection_width := d.projection_extent.w
        right := d.right
        up := d.up }
    static_frame_index := 0 }

/-- `Render::render` (src/render/mod.rs lines 337-407).  `ok` is the
outcome of `surface.get_current_texture()` (line 338): on failure the
function returns at once.  On success it selects the read and target
collectors from the counter (lines 362-363), records the accumulate pass
(reads `read`, attaches `target`) and the present pass (reads `target`,
attaches the surface image), and increments the counter (line 406; `u32`
addition, wrapping). -/
def Render.render (r : Render) (ok : Bool) : Render × Option PassInfo :=
  if ok then
    let read := readIndex r.static_frame_index
    let target := writeIndex r.static_frame_index
    ({ r with static_frame_index := (r.static_frame_index + 1) % U32 },
     some ⟨r.static_frame_index, read, target, target⟩)
  else
    (r, none)

/-! ### src/main.rs: input snapshot and per-tick camera control -/

/-- The physical key codes read by `System::on_window_event`
(src/main.rs lines 117-134). -/
inductive Key where
  | keyA | keyD | keyR | keyF | keyW | keyS
  | arrowRight | arrowLeft | arrowDown | arrowUp
  | f11
deriving DecidableEq, Repr

/-- Modelled from the spec: `src/input.rs` is not among the sources; per
§4.3 `is_key_pressed(key)` of the per-tick snapshot "reflects current
level", so a tick's input snapshot is a plain predicate `Key → Bool`.
The cast chain `is_key_pressed(a) as i32 - is_key_pressed(b) as i32`
then `as f32` (src/main.rs lines 128-134) is the difference of 0/1
indicators. -/
def boolToF (b : Bool) : ℝ := if b then 1 else 0

/-- `move_axis` (src/main.rs lines 127-131): D−A, R−F, W−S. -/
def moveAxis (p : Key → Bool) : Vec3f :=
  ⟨boolToF (p .keyD) - boolToF (p .keyA),
   boolToF (p .keyR) - boolToF (p .keyF),
   boolToF (p .keyW) - boolToF (p .keyS)⟩

/-- `rotate_axis` (src/main.rs lines 132-135): ArrowRight−ArrowLeft,
ArrowDown−ArrowUp. -/
def rotateAxis (p : Key → Bool) : Vec2f :=
  ⟨boolToF (p .arrowRight) - boolToF (p .arrowLeft),
   boolToF (p .arrowDown) - boolToF (p .arrowUp)⟩

/-- `f32::signum` as used on `direction.z` (src/main.rs line 148): `1.0`
for positive values and `+0.0`, `-1.0` for negative values (`ℝ` has no
negative zero or NaN). -/
noncomputable def fsignum (x : ℝ) : ℝ := if x < 0 then -1 else 1

/-- `f32::clamp(lo, hi)` (src/main.rs line 158) for `lo ≤ hi`. -/
noncomputable def fclamp (x lo hi : ℝ) : ℝ := min (max x lo) hi

/-- The `'camera_control` block (src/main.rs lines 126-168): returns
`camera_update_required` together with the camera after the block.  When
both axis magnitudes are at or below `0.01` the block breaks out with
`false` and the camera untouched; otherwise it translates by the
key-selected camera-local axes scaled by `delta_time * 8.0`, re-derives
azimuth/elevator angles from the current direction, advances them by the
rotate axis scaled by `delta_time * 2.0`, clamps azimuth into
`[0.01, π - 0.01]`, rebuilds the look direction and calls `Camera::set`
with the world up hint `(0, 1, 0)`. -/
noncomputable def cameraControl (cam : Camera) (p : Key → Bool) (dt : ℝ) : Bool × Camera :=
  let move_axis := moveAxis p
  let rotate_axis := rotateAxis p
  if (move_axis.length ≤ 0.01 ∧ rotate_axis.length ≤ 0.01) then
    (false, cam)
  else
    let movement_delta :=
      ((((cam.right.smul move_axis.x).add (cam.up.smul move_axis.y)).add
        (cam.direction.smul move_axis.z)).smul dt).smul 8
    let azimuth := Real.arccos cam.direction.y
    let elevator := fsignum cam.direction.z *
      Real.arccos (cam.direction.x /
        Real.sqrt (cam.direction.x * cam.direction.x + cam.direction.z * cam.direction.z))
    let elevator1 := elevator + rotate_axis.x * dt * 2
    let azimuth1 := azimuth + rotate_axis.y * dt * 2
    let azimuth2 := fclamp azimuth1 0.01 (Real.pi - 0.01)
    let new_direction : Vec3f :=
      ⟨Real.sin azimuth2 * Real.cos elevator1,
       Real.cos azimuth2,
       Real.sin azimuth2 * Real.sin elevator1⟩
    (true,
     cam.set ((cam.location.add movement_delta))
       ((cam.location.add movement_delta).add new_direction)
       ⟨0, 1, 0⟩)

/-! ### src/main.rs: `System` and its event handling -/

/-- `struct System` (src/main.rs lines 39-45), restricted to the state
the claims concern: the camera, the renderer, and the window's inner
size (read by `update_render_camera`).  The timer contributes only the
per-tick `delta_time`, passed as a parameter; the input contributes only
the per-tick pressed-key snapshot, likewise a parameter (`src/timer.rs`
and `src/input.rs` are not among the sources). -/
structure System where
  camera : Camera
  render : Render
  window_size : Ext2u

/-- `System::update_render_camera` (src/main.rs lines 69-87): builds a
`CameraDescriptor` from the camera and the window's inner size and hands
it to `Render::set_camera`. -/
noncomputable def updateRenderCamera (s : System) : System :=
  let m : ℝ := (Nat.min s.window_size.w s.window_size.h : ℕ)
  { s with
    render := s.render.set_camera
      { at_ := s.camera.at_
        dir := s.camera.direction
        location := s.camera.location
        near := 1
        projection_extent := ⟨(s.window_size.w : ℝ) / m, (s.window_size.h : ℝ) / m⟩
        right := s.camera.right
        up := s.camera.up } }

/-- The `WindowEvent::Resized` arm (src/main.rs lines 108-111):
`render.resize(new_extent)` then `update_render_camera()`; the window's
inner size is the event's extent. -/
noncomputable def onResize (s : System) (new_extent : Ext2u) : System :=
  updateRenderCamera
    { s with window_size := new_extent, render := s.render.resize new_extent }

/-- The `WindowEvent::RedrawRequested` arm (src/main.rs lines 112-193):
one frame-loop tick.  `pressed` is this tick's input snapshot, `dt` the
timer's `delta_time`, `ok` whether `Render::render` acquires a surface
image.  The F11 fullscreen toggle, the fps logging and
`input.clear_changed()` touch no state modelled here; the camera-control
block runs, then `update_render_camera()` exactly when it reported a
change, then `Render::render`. -/
noncomputable def onRedraw (s : System) (pressed : Key → Bool) (dt : ℝ) (ok : Bool) :
    System × Option PassInfo :=
  let rc := cameraControl s.camera pressed dt
  let s1 : System := { s with camera := rc.2 }
  let s2 := if rc.1 then updateRenderCamera s1 else s1
  let rr := s2.render.render ok
  ({ s2 with render := rr.1 }, rr.2)

/-- One redraw tick's external inputs: the pressed-key snapshot the
window system has accumulated, the timer's `delta_time`, and whether the
surface image acquisition succeeds. -/
structure TickIn where
  pressed : Key → Bool
  dt : ℝ
  ok : Bool

/-- The self-sustaining redraw loop (tick `request_redraw`s the next
tick): the successive states after each processed `RedrawRequested`
event. -/
noncomputable def runTicks (s : System) : List TickIn → List System
  | [] => []
  | t :: ts =>
    let s1 := (onRedraw s t.pressed t.dt t.ok).1
    s1 :: runTicks s1 ts

/-! ### Arithmetic helper lemmas -/

lemma and_one_eq_mod (n : ℕ) : n &&& 1 = n % 2 := Nat.and_one_is_mod n

lemma two_dvd_U32 : 2 ∣ U32 := ⟨2 ^ 31, by norm_num [U32]⟩

lemma mod_U32_parity (a : ℕ) : a % U32 % 2 = a % 2 := Nat.mod_mod_of_dvd a two_dvd_U32

/-! ### Vector algebra helper lemmas -/

lemma Vec3f.length2_nonneg (v : Vec3f) : 0 ≤ v.length2 := by
  simp only [length2, dot]
  nlinarith [mul_self_nonneg v.x, mul_self_nonneg v.y, mul_self_nonneg v.z]

lemma Vec3f.mul_self_length (v : Vec3f) : v.length * v.length = v.length2 :=
  Real.mul_self_sqrt v.length2_nonneg

lemma Vec3f.length2_eq_zero {v : Vec3f} : v.length2 = 0 ↔ v = ⟨0, 0, 0⟩ := by
  constructor
  · intro h
    simp only [length2, dot] at h
    obtain ⟨x, y, z⟩ := v
    simp only [Vec3f.mk.injEq]
    refine ⟨?_, ?_, ?_⟩ <;> nlinarith [mul_self_nonneg x, mul_self_nonneg y, mul_self_nonneg z]
  · intro h; subst h; simp [length2, dot]

lemma Vec3f.length2_pos {v : Vec3f} (h : v ≠ ⟨0, 0, 0⟩) : 0 < v.length2 :=
  lt_of_le_of_ne v.length2_nonneg (fun h0 => h (length2_eq_zero.mp h0.symm))

lemma Vec3f.length_pos {v : Vec3f} (h : v ≠ ⟨0, 0, 0⟩) : 0 < v.length :=
  Real.sqrt_pos.mpr (v.length2_pos h)

lemma Vec3f.length2_normalized {v : Vec3f} (h : v ≠ ⟨0, 0, 0⟩) :
    v.normalized.length2 = 1 := by
  have hl : 0 < v.length := v.length_pos h
  have hsq : v.length * v.length = v.length2 := v.mul_self_length
  simp only [normalized, length2, dot] at *
  field_simp
  linarith [hsq]

lemma Vec3f.length_normalized {v : Vec3f} (h : v ≠ ⟨0, 0, 0⟩) :
    v.normalized.length = 1 := by
  rw [length, length2_normalized h, Real.sqrt_one]

lemma Vec3f.dot_comm (a b : Vec3f) : a.dot b = b.dot a := by
  simp only [dot]; ring

lemma Vec3f.cross_dot_left (a b : Vec3f) : (a.cross b).dot a = 0 := by
  simp only [cross, dot]; ring

lemma Vec3f.cross_dot_right (a b : Vec3f) : (a.cross b).dot b = 0 := by
  simp only [cross, dot]; ring

/-- Lagrange's identity for the source's cross and dot products. -/
lemma Vec3f.length2_cross (a b : Vec3f) :
    (a.cross b).length2 = a.length2 * b.length2 - (a.dot b) * (a.dot b) := by
  simp only [cross, dot, length2]; ring

lemma Vec3f.normalized_eq_smul (v : Vec3f) : v.normalized = v.smul (1 / v.length) := by
  simp only [normalized, smul, Vec3f.mk.injEq]
  refine ⟨?_, ?_, ?_⟩ <;> ring

lemma Vec3f.cross_smul_left (v w : Vec3f) (t : ℝ) :
    (v.smul t).cross w = (v.cross w).smul t := by
  simp only [cross, smul, Vec3f.mk.injEq]
  refine ⟨?_, ?_, ?_⟩ <;> ring

lemma Vec3f.smul_dot (v w : Vec3f) (t : ℝ) : (v.smul t).dot w = v.dot w * t := by
  simp only [smul, dot]; ring

lemma Vec3f.dot_smul (v w : Vec3f) (t : ℝ) : v.dot (w.smul t) = v.dot w * t := by
  simp only [smul, dot]; ring

lemma Vec3f.length2_smul (v : Vec3f) (t : ℝ) :
    (v.smul t).length2 = v.length2 * (t * t) := by
  simp only [smul, length2, dot]; ring

lemma Vec3f.smul_ne_zero {v : Vec3f} {t : ℝ} (hv : v ≠ ⟨0, 0, 0⟩) (ht : t ≠ 0) :
    v.smul t ≠ ⟨0, 0, 0⟩ := by
  intro h
  apply hv
  have h2 : (v.smul t).length2 = 0 := length2_eq_zero.mpr h
  rw [length2_smul] at h2
  rcases mul_eq_zero.mp h2 with h3 | h3
  · exact length2_eq_zero.mp h3
  · exact absurd (mul_self_eq_zero.mp h3) ht

lemma Vec3f.add_sub_cancel_left (a b : Vec3f) : (a.add b).sub a = b := by
  obtain ⟨b1, b2, b3⟩ := b
  simp only [add, sub, Vec3f.mk.injEq]
  refine ⟨?_, ?_, ?_⟩ <;> ring

/-! ### Concrete states and snapshots used as test inputs -/

/-- Input snapshot with only the W key (forward) held. -/
def onlyW : Key → Bool := fun k => match k with | .keyW => true | _ => false

/-- Input snapshot with only the ArrowDown key held. -/
def onlyDown : Key → Bool := fun k => match k with | .arrowDown => true | _ => false

/-- Input snapshot with no key held. -/
def noKeys : Key → Bool := fun _ => false

/-- An all-zero camera uniform record. -/
def cdZero : CameraData :=
  ⟨⟨0, 0, 0⟩, 0, ⟨0, 0, 0⟩, 0, ⟨0, 0, 0⟩, 0, ⟨0, 0, 0⟩, 0⟩

/-- A renderer state mid-accumulation (37 frames accumulated). -/
def render37 : Render :=
  { static_frame_index := 37, extent := ⟨800, 600⟩, camera_buffer := cdZero }

/-- The default 800×600 system with the default camera and 37 frames
accumulated. -/
def sys37 : System :=
  { camera := Camera.new, render := render37, window_size := ⟨800, 600⟩ }

lemma moveAxis_onlyW : moveAxis onlyW = ⟨0, 0, 1⟩ := by
  simp [moveAxis, onlyW, boolToF]

lemma rotateAxis_onlyW : rotateAxis onlyW = ⟨0, 0⟩ := by
  simp [rotateAxis, onlyW, boolToF]

lemma moveAxis_noKeys : moveAxis noKeys = ⟨0, 0, 0⟩ := by
  simp [moveAxis, noKeys, boolToF]

lemma rotateAxis_noKeys : rotateAxis noKeys = ⟨0, 0⟩ := by
  simp [rotateAxis, noKeys, boolToF]

lemma moveAxis_onlyDown : moveAxis onlyDown = ⟨0, 0, 0⟩ := by
  simp [moveAxis, onlyDown, boolToF]

lemma rotateAxis_onlyDown : rotateAxis onlyDown = ⟨0, 1⟩ := by
  simp [rotateAxis, onlyDown, boolToF]

lemma length_unit_z : (⟨0, 0, 1⟩ : Vec3f).length = 1 := by
  simp only [Vec3f.length, Vec3f.length2, Vec3f.dot]
  norm_num

lemma length_zero3 : (⟨0, 0, 0⟩ : Vec3f).length = 0 := by
  simp only [Vec3f.length, Vec3f.length2, Vec3f.dot]
  norm_num

lemma length_zero2 : (⟨0, 0⟩ : Vec2f).length = 0 := by
  simp only [Vec2f.length, Vec2f.length2, Vec2f.dot]
  norm_num

lemma length_unit_y2 : (⟨0, 1⟩ : Vec2f).length = 1 := by
  simp only [Vec2f.length, Vec2f.length2, Vec2f.dot]
  norm_num

/-! ### Helper lemmas about the camera-control block and the tick -/

/-- Below-threshold input short-circuits the camera-control block. -/
lemma cameraControl_of_small (cam : Camera) (p : Key → Bool) (dt : ℝ)
    (hm : (moveAxis p).length ≤ 0.01) (hr : (rotateAxis p).length ≤ 0.01) :
    cameraControl cam p dt = (false, cam) := by
  simp only [cameraControl]
  rw [if_pos ⟨hm, hr⟩]

/-- Above-threshold input makes the camera-control block report a
change. -/
lemma cameraControl_fired (cam : Camera) (p : Key → Bool) (dt : ℝ)
    (h : ¬((moveAxis p).length ≤ 0.01 ∧ (rotateAxis p).length ≤ 0.01)) :
    (cameraControl cam p dt).1 = true := by
  simp only [cameraControl]
  rw [if_neg h]

lemma onlyW_not_small : ¬((moveAxis onlyW).length ≤ 0.01 ∧ (rotateAxis onlyW).length ≤ 0.01) := by
  rintro ⟨h1, -⟩
  rw [moveAxis_onlyW, length_unit_z] at h1
  norm_num at h1

lemma onlyDown_not_small :
    ¬((moveAxis onlyDown).length ≤ 0.01 ∧ (rotateAxis onlyDown).length ≤ 0.01) := by
  rintro ⟨-, h2⟩
  rw [rotateAxis_onlyDown, length_unit_y2] at h2
  norm_num at h2

/-- The camera the tick leaves behind is always the camera-control
block's output, whether or not it was propagated to the renderer. -/
lemma onRedraw_camera (s : System) (p : Key → Bool) (dt : ℝ) (ok : Bool) :
    (onRedraw s p dt ok).1.camera = (cameraControl s.camera p dt).2 := by
  cases h : (cameraControl s.camera p dt).1 <;>
    simp [onRedraw, h, updateRenderCamera, Render.render]

lemma U32_eq : U32 = 4294967296 := by norm_num [U32]

/-- A tick whose input is below both thresholds leaves the camera alone
and subjects the renderer to the bare render step. -/
lemma onRedraw_of_small (s : System) (p : Key → Bool) (dt : ℝ) (ok : Bool)
    (hm : (moveAxis p).length ≤ 0.01) (hr : (rotateAxis p).length ≤ 0.01) :
    (onRedraw s p dt ok).1.camera = s.camera ∧
    (onRedraw s p dt ok).1.render = (s.render.render ok).1 ∧
    (onRedraw s p dt ok).2 = (s.render.render ok).2 := by
  have hcc := cameraControl_of_small s.camera p dt hm hr
  refine ⟨?_, ?_, ?_⟩ <;> simp [onRedraw, hcc]

lemma render_true_counter (r : Render) :
    (r.render true).1.static_frame_index = (r.static_frame_index + 1) % U32 := by
  simp [Render.render]

/-! ### Claim theorems -/

/-- C1: for every frame-counter value `N` the buffer selection returns
two distinct indices from `{0, 1}`, with read index `N & 1` and write
index `(N + 1) & 1`; the read index at `N` equals the write index at
`N + 1`, and a successful `Render::render` records an accumulate pass
into the write collector and a present pass sampling exactly that
just-written collector. -/
theorem buffer_selection_ping_pong (n : ℕ) (r : Render) :
    readIndex n = n &&& 1 ∧
    writeIndex n = (n + 1) &&& 1 ∧
    readIndex n < 2 ∧ writeIndex n < 2 ∧
    readIndex n ≠ writeIndex n ∧
    readIndex n = writeIndex (n + 1) ∧
    (r.render true).2 = some ⟨r.static_frame_index, readIndex r.static_frame_index,
      writeIndex r.static_frame_index, writeIndex r.static_frame_index⟩ := by
  refine ⟨rfl, ?_, ?_, ?_, ?_, ?_, ?_⟩
  · simp only [writeIndex, and_one_eq_mod, mod_U32_parity]
  · simp only [readIndex, and_one_eq_mod]; omega
  · simp only [writeIndex, and_one_eq_mod, mod_U32_parity]; omega
  · simp only [readIndex, writeIndex, and_one_eq_mod, mod_U32_parity]; omega
  · simp only [readIndex, writeIndex, and_one_eq_mod, mod_U32_parity, U32_eq]; omega
  · simp [Render.render]

/-- C9: `Render::set_camera` zeroes `static_frame_index` unconditionally
(whatever descriptor is supplied, identical to the previous one or not);
hence camera propagation (`update_render_camera`) always invalidates,
and a resize event invalidates twice — once inside `Render::resize` and
once via the propagation that follows. -/
theorem set_camera_always_invalidates (r : Render) (d : CameraDescriptor)
    (s s' : System) (e : Ext2u) :
    (r.set_camera d).static_frame_index = 0 ∧
    (updateRenderCamera s').render.static_frame_index = 0 ∧
    (s.render.resize e).static_frame_index = 0 ∧
    (onResize s e).render.static_frame_index = 0 :=
  ⟨rfl, rfl, rfl, rfl⟩

/-- C10: the frame counter is a `u32` advanced by exactly one per
successful `Render::render` (wrapping at `2 ^ 32`), and because `2 ^ 32`
is even the parity-based selection still alternates across the wrap: the
read index after a wrapping increment equals the previous write index,
and conversely. -/
theorem counter_wraps_and_parity_alternates (r : Render) (n : ℕ) :
    (r.render true).1.static_frame_index = (r.static_frame_index + 1) % U32 ∧
    readIndex ((n + 1) % U32) = writeIndex n ∧
    writeIndex ((n + 1) % U32) = readIndex n := by
  refine ⟨?_, rfl, ?_⟩
  · simp [Render.render]
  · simp only [readIndex, writeIndex, and_one_eq_mod, U32_eq]; omega

/-- C8: when both axis magnitudes are at or below the `0.01` threshold
the camera update is skipped entirely: the block reports no change, the
tick leaves the camera untouched, and the renderer undergoes only the
plain render step applied to the original render state — in particular
no `set_camera`, so no frame-counter reset. -/
theorem below_threshold_tick_is_noop (s : System) (p : Key → Bool) (dt : ℝ) (ok : Bool)
    (hm : (moveAxis p).length ≤ 0.01) (hr : (rotateAxis p).length ≤ 0.01) :
    (cameraControl s.camera p dt).1 = false ∧
    (onRedraw s p dt ok).1.camera = s.camera ∧
    (onRedraw s p dt ok).1.render = (s.render.render ok).1 ∧
    (onRedraw s p dt ok).2 = (s.render.render ok).2 := by
  obtain ⟨h1, h2, h3⟩ := onRedraw_of_small s p dt ok hm hr
  exact ⟨by rw [cameraControl_of_small s.camera p dt hm hr], h1, h2, h3⟩

/-- Witness for C8 at a concrete input: no key held, `dt = 1/10`. -/
theorem below_threshold_tick_is_noop_witness :
    (cameraControl sys37.camera noKeys (1/10)).1 = false ∧
    (onRedraw sys37 noKeys (1/10) true).1.camera = sys37.camera ∧
    (onRedraw sys37 noKeys (1/10) true).1.render = (sys37.render.render true).1 ∧
    (onRedraw sys37 noKeys (1/10) true).2 = (sys37.render.render true).2 :=
  below_threshold_tick_is_noop sys37 noKeys (1/10) true
    (by rw [moveAxis_noKeys, length_zero3]; norm_num)
    (by rw [rotateAxis_noKeys, length_zero2]; norm_num)

lemma Vec3f.sub_eq_zero {a b : Vec3f} (h : a.sub b = ⟨0, 0, 0⟩) : a = b := by
  obtain ⟨a1, a2, a3⟩ := a
  obtain ⟨b1, b2, b3⟩ := b
  simp only [sub, Vec3f.mk.injEq] at h ⊢
  refine ⟨by linarith [h.1], by linarith [h.2.1], by linarith [h.2.2]⟩

/-- C4: for valid input — look-at target distinct from the location and
up hint not parallel to the look vector — `Camera::set` computes
`direction = normalize(at - location)`,
`right = normalize(direction × approx_up)`,
`up = normalize(right × direction)`, and these three are unit vectors
and pairwise orthogonal (exactly so, in the ideal real arithmetic
embedding of the `f32` code). -/
theorem set_produces_orthonormal_basis (cam : Camera) (location at_ approx_up : Vec3f)
    (h1 : at_ ≠ location)
    (h2 : (at_.sub location).cross approx_up ≠ ⟨0, 0, 0⟩) :
    (cam.set location at_ approx_up).direction = (at_.sub location).normalized ∧
    (cam.set location at_ approx_up).right =
      ((cam.set location at_ approx_up).direction.cross approx_up).normalized ∧
    (cam.set location at_ approx_up).up =
      ((cam.set location at_ approx_up).right.cross
        (cam.set location at_ approx_up).direction).normalized ∧
    (cam.set location at_ approx_up).direction.length = 1 ∧
    (cam.set location at_ approx_up).right.length = 1 ∧
    (cam.set location at_ approx_up).up.length = 1 ∧
    (cam.set location at_ approx_up).direction.dot (cam.set location at_ approx_up).right = 0 ∧
    (cam.set location at_ approx_up).direction.dot (cam.set location at_ approx_up).up = 0 ∧
    (cam.set location at_ approx_up).right.dot (cam.set location at_ approx_up).up = 0 := by
  have hw : at_.sub location ≠ ⟨0, 0, 0⟩ := fun hz => h1 (Vec3f.sub_eq_zero hz)
  have hwlen : (at_.sub location).length ≠ 0 := ne_of_gt (Vec3f.length_pos hw)
  set w : Vec3f := at_.sub location with hw_def
  set d : Vec3f := w.normalized with hd_def
  have hdlen : d.length = 1 := Vec3f.length_normalized hw
  have hd2 : d.length2 = 1 := by rw [← Vec3f.mul_self_length, hdlen]; norm_num
  have hdu_smul : d.cross approx_up = (w.cross approx_up).smul (1 / w.length) := by
    rw [hd_def, Vec3f.normalized_eq_smul, Vec3f.cross_smul_left]
  have hdu_ne : d.cross approx_up ≠ ⟨0, 0, 0⟩ := by
    rw [hdu_smul]
    exact Vec3f.smul_ne_zero h2 (one_div_ne_zero hwlen)
  set r : Vec3f := (d.cross approx_up).normalized with hr_def
  have hrlen : r.length = 1 := Vec3f.length_normalized hdu_ne
  have hr2 : r.length2 = 1 := by rw [← Vec3f.mul_self_length, hrlen]; norm_num
  have hdr : d.dot r = 0 := by
    rw [hr_def, Vec3f.normalized_eq_smul, Vec3f.dot_smul,
      Vec3f.dot_comm d (d.cross approx_up), Vec3f.cross_dot_left, zero_mul]
  have hrd_ne : r.cross d ≠ ⟨0, 0, 0⟩ := by
    intro hz
    have h0 : (r.cross d).length2 = 0 := Vec3f.length2_eq_zero.mpr hz
    rw [Vec3f.length2_cross, hr2, hd2, Vec3f.dot_comm r d, hdr] at h0
    norm_num at h0
  have huplen : (r.cross d).normalized.length = 1 := Vec3f.length_normalized hrd_ne
  have hdup : d.dot (r.cross d).normalized = 0 := by
    rw [Vec3f.normalized_eq_smul, Vec3f.dot_smul,
      Vec3f.dot_comm d (r.cross d), Vec3f.cross_dot_right, zero_mul]
  have hrup : r.dot (r.cross d).normalized = 0 := by
    rw [Vec3f.normalized_eq_smul, Vec3f.dot_smul,
      Vec3f.dot_comm r (r.cross d), Vec3f.cross_dot_left, zero_mul]
  exact ⟨rfl, rfl, rfl, hdlen, hrlen, huplen, hdr, hdup, hrup⟩

/-- Witness for C4 at a concrete input: the default pose, looking from
`(0,0,1)` at the origin with up hint `(0,1,0)`. -/
theorem set_produces_orthonormal_basis_witness :
    (Camera.new.set ⟨0, 0, 1⟩ ⟨0, 0, 0⟩ ⟨0, 1, 0⟩).direction =
      ((⟨0, 0, 0⟩ : Vec3f).sub ⟨0, 0, 1⟩).normalized ∧
    (Camera.new.set ⟨0, 0, 1⟩ ⟨0, 0, 0⟩ ⟨0, 1, 0⟩).right =
      ((Camera.new.set ⟨0, 0, 1⟩ ⟨0, 0, 0⟩ ⟨0, 1, 0⟩).direction.cross ⟨0, 1, 0⟩).normalized ∧
    (Camera.new.set ⟨0, 0, 1⟩ ⟨0, 0, 0⟩ ⟨0, 1, 0⟩).up =
      ((Camera.new.set ⟨0, 0, 1⟩ ⟨0, 0, 0⟩ ⟨0, 1, 0⟩).right.cross
        (Camera.new.set ⟨0, 0, 1⟩ ⟨0, 0, 0⟩ ⟨0, 1, 0⟩).direction).normalized ∧
    (Camera.new.set ⟨0, 0, 1⟩ ⟨0, 0, 0⟩ ⟨0, 1, 0⟩).direction.length = 1 ∧
    (Camera.new.set ⟨0, 0, 1⟩ ⟨0, 0, 0⟩ ⟨0, 1, 0⟩).right.length = 1 ∧
    (Camera.new.set ⟨0, 0, 1⟩ ⟨0, 0, 0⟩ ⟨0, 1, 0⟩).up.length = 1 ∧
    (Camera.new.set ⟨0, 0, 1⟩ ⟨0, 0, 0⟩ ⟨0, 1, 0⟩).direction.dot
      (Camera.new.set ⟨0, 0, 1⟩ ⟨0, 0, 0⟩ ⟨0, 1, 0⟩).right = 0 ∧
    (Camera.new.set ⟨0, 0, 1⟩ ⟨0, 0, 0⟩ ⟨0, 1, 0⟩).direction.dot
      (Camera.new.set ⟨0, 0, 1⟩ ⟨0, 0, 0⟩ ⟨0, 1, 0⟩).up = 0 ∧
    (Camera.new.set ⟨0, 0, 1⟩ ⟨0, 0, 0⟩ ⟨0, 1, 0⟩).right.dot
      (Camera.new.set ⟨0, 0, 1⟩ ⟨0, 0, 0⟩ ⟨0, 1, 0⟩).up = 0 :=
  set_produces_orthonormal_basis Camera.new ⟨0, 0, 1⟩ ⟨0, 0, 0⟩ ⟨0, 1, 0⟩
    (by intro h; rw [Vec3f.mk.injEq] at h; norm_num at h)
    (by norm_num [Vec3f.sub, Vec3f.cross, Vec3f.mk.injEq])

/-- C2: a tick whose camera-control block reports a change performs the
tick's buffer selection at counter 0 (the selection reads collector 0
and writes collector 1), and every `resize` call — including the second
of two consecutive calls with the same extent — resets the counter to 0
before any later selection, the collectors being recreated at the
event's extent. -/
theorem camera_change_and_resize_reset (s : System) (p : Key → Bool) (dt : ℝ) (e : Ext2u)
    (hfired : (cameraControl s.camera p dt).1 = true) :
    (onRedraw s p dt true).2 = some ⟨0, 0, 1, 1⟩ ∧
    (onResize s e).render.static_frame_index = 0 ∧
    (onResize (onResize s e) e).render.static_frame_index = 0 ∧
    (onResize s e).render.extent = e := by
  refine ⟨?_, rfl, rfl, rfl⟩
  simp only [onRedraw, hfired, eq_self_iff_true, if_true, updateRenderCamera,
    Render.set_camera, Render.render]
  norm_num [readIndex, writeIndex, U32_eq]

/-- Witness for C2 at a concrete input: 37 accumulated frames, W key
held, `dt = 1/10`, extent 400×300. -/
theorem camera_change_and_resize_reset_witness :
    (onRedraw sys37 onlyW (1/10) true).2 = some ⟨0, 0, 1, 1⟩ ∧
    (onResize sys37 ⟨400, 300⟩).render.static_frame_index = 0 ∧
    (onResize (onResize sys37 ⟨400, 300⟩) ⟨400, 300⟩).render.static_frame_index = 0 ∧
    (onResize sys37 ⟨400, 300⟩).render.extent = ⟨400, 300⟩ :=
  camera_change_and_resize_reset sys37 onlyW (1/10) ⟨400, 300⟩
    (cameraControl_fired _ _ _ onlyW_not_small)

/-- C3: over any run of redraw ticks in which no tick carries
above-threshold camera input and every tick acquires its surface image,
the frame counter strictly increases by exactly 1 per tick and never
resets: the counters along the run are `c+1, c+2, ..., c+n` (stated up
to the `u32` range; the wrap at `2 ^ 32` is claim C10's concern). -/
theorem no_input_counter_increments (s : System) (ts : List TickIn)
    (h : ∀ t ∈ ts, (moveAxis t.pressed).length ≤ 0.01 ∧
      (rotateAxis t.pressed).length ≤ 0.01 ∧ t.ok = true)
    (hov : s.render.static_frame_index + ts.length < U32) :
    (runTicks s ts).map (fun u => u.render.static_frame_index) =
      List.range' (s.render.static_frame_index + 1) ts.length := by
  induction ts generalizing s with
  | nil => simp [runTicks]
  | cons t ts ih =>
    obtain ⟨hm, hr, hok⟩ := h t (List.mem_cons_self t ts)
    have hcnt : (onRedraw s t.pressed t.dt t.ok).1.render.static_frame_index
        = s.render.static_frame_index + 1 := by
      have h2 := (onRedraw_of_small s t.pressed t.dt t.ok hm hr).2.1
      rw [h2, hok, render_true_counter]
      exact Nat.mod_eq_of_lt (by simp only [List.length_cons] at hov; omega)
    have htail := ih ((onRedraw s t.pressed t.dt t.ok).1)
      (fun t' ht' => h t' (List.mem_cons_of_mem _ ht'))
      (by rw [hcnt]; simp only [List.length_cons] at hov; omega)
    rw [hcnt] at htail
    simp only [runTicks, List.map_cons, List.length_cons, List.range'_succ]
    rw [hcnt, htail]

/-- Witness for C3 at a concrete input: two no-input successful ticks
from 37 accumulated frames yield counters 38 then 39. -/
theorem no_input_counter_increments_witness :
    (runTicks sys37 [⟨noKeys, 1/10, true⟩, ⟨noKeys, 1/20, true⟩]).map
      (fun u => u.render.static_frame_index) = List.range' 38 2 := by
  have h := no_input_counter_increments sys37 [⟨noKeys, 1/10, true⟩, ⟨noKeys, 1/20, true⟩]
    (by
      intro t ht
      simp only [List.mem_cons, List.not_mem_nil, or_false] at ht
      rcases ht with h1 | h1 <;> subst h1 <;>
        exact ⟨by rw [moveAxis_noKeys, length_zero3]; norm_num,
               by rw [rotateAxis_noKeys, length_zero2]; norm_num, rfl⟩)
    (by norm_num [sys37, render37, U32])
  simpa [sys37, render37] using h

/-- C5 counterexample: with the default camera, 37 accumulated frames
and the W key held, a tick whose surface-image acquisition fails still
zeroes the frame counter (the camera change and its propagation happen
before `Render::render` runs and are not rolled back), so the tick's
state is not left untouched. -/
theorem failed_acquisition_counterexample :
    (onRedraw sys37 onlyW (1/10) false).1.render.static_frame_index = 0 ∧
    sys37.render.static_frame_index = 37 := by
  have hf : (cameraControl sys37.camera onlyW (1/10)).1 = true :=
    cameraControl_fired _ _ _ onlyW_not_small
  refine ⟨?_, rfl⟩
  simp only [onRedraw, hf, eq_self_iff_true, if_true, updateRenderCamera,
    Render.set_camera, Render.render, Bool.false_eq_true, if_false]

/-- Evaluation of the camera-control block on the default camera with
the W key held and `delta_time = 1/10`: the camera translates forward by
`0.8` along `(0, 0, -1)` and keeps its basis. -/
lemma cameraControl_new_onlyW :
    cameraControl Camera.new onlyW (1/10) =
      (true, { location := ⟨0, 0, 1/5⟩, at_ := ⟨0, 0, -(4/5)⟩,
               direction := ⟨0, 0, -1⟩, right := ⟨1, 0, 0⟩, up := ⟨0, 1, 0⟩ }) := by
  have hpi := Real.pi_gt_three
  have hclamp2 : fclamp (Real.pi/2) (1/100) (Real.pi - 1/100) = Real.pi/2 := by
    rw [fclamp, max_eq_left (by linarith), min_eq_left (by linarith)]
  simp only [cameraControl, moveAxis_onlyW, rotateAxis_onlyW, Camera.new]
  rw [if_neg (by rintro ⟨hx, -⟩; rw [length_unit_z] at hx; norm_num at hx)]
  simp only [Prod.mk.injEq]
  refine ⟨trivial, ?_⟩
  simp only [Camera.set]
  norm_num [Vec3f.smul, Vec3f.add, Vec3f.sub, fsignum, Real.arccos_zero]
  rw [hclamp2]
  norm_num [Real.cos_pi_div_two, Real.sin_pi_div_two, Vec3f.normalized, Vec3f.length,
    Vec3f.length2, Vec3f.dot, Vec3f.cross, Vec3f.mk.injEq, Real.sqrt_one]

/-- C6: starting from the default camera (`location = (0,0,1)`,
`at = (0,0,0)`, `direction = (0,0,-1)`), one tick with `delta_time =
1/10` and only the W key held (movement axis `(0,0,1)`, no rotation)
translates `location` by `direction * (1/10 * 8)` to `(0, 0, 1/5)`,
translates `at` by the same vector (rigid translation), leaves
`direction` unchanged, and — the camera having changed — performs the
tick's buffer selection at a frame counter reset to 0. -/
theorem forward_tick_scenario :
    (onRedraw sys37 onlyW (1/10) true).1.camera.location = ⟨0, 0, 1/5⟩ ∧
    (onRedraw sys37 onlyW (1/10) true).1.camera.location =
      Camera.new.location.add (Camera.new.direction.smul ((1/10) * 8)) ∧
    (onRedraw sys37 onlyW (1/10) true).1.camera.at_.sub Camera.new.at_ =
      (onRedraw sys37 onlyW (1/10) true).1.camera.location.sub Camera.new.location ∧
    (onRedraw sys37 onlyW (1/10) true).1.camera.direction = Camera.new.direction ∧
    (onRedraw sys37 onlyW (1/10) true).2 = some ⟨0, 0, 1, 1⟩ := by
  have hcam : (onRedraw sys37 onlyW (1/10) true).1.camera =
      { location := ⟨0, 0, 1/5⟩, at_ := ⟨0, 0, -(4/5)⟩,
        direction := ⟨0, 0, -1⟩, right := ⟨1, 0, 0⟩, up := ⟨0, 1, 0⟩ } := by
    rw [onRedraw_camera]
    show (cameraControl Camera.new onlyW (1/10)).2 = _
    rw [cameraControl_new_onlyW]
  have hpass : (onRedraw sys37 onlyW (1/10) true).2 = some ⟨0, 0, 1, 1⟩ := by
    have hf : (cameraControl sys37.camera onlyW (1/10)).1 = true := by
      show (cameraControl Camera.new onlyW (1/10)).1 = true
      rw [cameraControl_new_onlyW]
    simp only [onRedraw, hf, eq_self_iff_true, if_true, updateRenderCamera,
      Render.set_camera, Render.render]
    norm_num [readIndex, writeIndex, U32_eq]
  rw [hcam]
  refine ⟨rfl, ?_, ?_, rfl, hpass⟩ <;>
    norm_num [Camera.new, Vec3f.add, Vec3f.sub, Vec3f.smul, Vec3f.mk.injEq]

/-- The reconstructed look direction handed to `Camera::set` is a unit
vector whose `y` component is the cosine of the (clamped) azimuth, so
the new `direction.y` is exactly that cosine. -/
lemma set_direction_y (cam : Camera) (L : Vec3f) (a e : ℝ) :
    (cam.set L (L.add ⟨Real.sin a * Real.cos e, Real.cos a, Real.sin a * Real.sin e⟩)
      ⟨0, 1, 0⟩).direction.y = Real.cos a := by
  have hlen2 : (⟨Real.sin a * Real.cos e, Real.cos a,
      Real.sin a * Real.sin e⟩ : Vec3f).length2 = 1 := by
    simp only [Vec3f.length2, Vec3f.dot]
    have h1 := Real.sin_sq_add_cos_sq a
    have h2 := Real.sin_sq_add_cos_sq e
    nlinarith [h1, h2]
  have hlen : (⟨Real.sin a * Real.cos e, Real.cos a,
      Real.sin a * Real.sin e⟩ : Vec3f).length = 1 := by
    rw [Vec3f.length, hlen2, Real.sqrt_one]
  simp only [Camera.set, Vec3f.add_sub_cancel_left, Vec3f.normalized, hlen]
  norm_num

/-- The clamp keeps the azimuth inside `[0.01, π - 0.01]`, where
`arccos ∘ cos` is the identity. -/
lemma arccos_cos_fclamp (A : ℝ) :
    0.01 ≤ Real.arccos (Real.cos (fclamp A 0.01 (Real.pi - 0.01))) ∧
    Real.arccos (Real.cos (fclamp A 0.01 (Real.pi - 0.01))) ≤ Real.pi - 0.01 := by
  have hpi := Real.pi_gt_three
  have hlo : (0.01 : ℝ) ≤ fclamp A 0.01 (Real.pi - 0.01) :=
    le_min (le_max_right _ _) (by norm_num; linarith)
  have hhi : fclamp A 0.01 (Real.pi - 0.01) ≤ Real.pi - 0.01 := min_le_right _ _
  rw [Real.arccos_cos (by linarith) (by linarith)]
  exact ⟨hlo, hhi⟩

/-- Whenever the camera-control block actually runs, the direction it
leaves behind has azimuth (`arccos` of its `y`) inside
`[0.01, π - 0.01]`. -/
lemma cameraControl_azimuth_bounds (cam : Camera) (p : Key → Bool) (dt : ℝ)
    (h : ¬((moveAxis p).length ≤ 0.01 ∧ (rotateAxis p).length ≤ 0.01)) :
    0.01 ≤ Real.arccos (cameraControl cam p dt).2.direction.y ∧
    Real.arccos (cameraControl cam p dt).2.direction.y ≤ Real.pi - 0.01 := by
  simp only [cameraControl]
  rw [if_neg h]
  dsimp only
  rw [set_direction_y]
  exact arccos_cos_fclamp _

/-- C7: after every tick of any run whose rotation-axis input has
magnitude 1 (so the camera-control block runs and clamps), the azimuth
of the reconstructed look direction lies in `[0.01, π - 0.01]` — it
never reaches 0 or π. -/
theorem rotation_azimuth_never_hits_poles (s : System) (ts : List TickIn)
    (h : ∀ t ∈ ts, (rotateAxis t.pressed).length = 1) :
    ∀ u ∈ runTicks s ts,
      0.01 ≤ Real.arccos u.camera.direction.y ∧
      Real.arccos u.camera.direction.y ≤ Real.pi - 0.01 := by
  induction ts generalizing s with
  | nil => intro u hu; simp [runTicks] at hu
  | cons t ts ih =>
    intro u hu
    have h1 : (rotateAxis t.pressed).length = 1 := h t (List.mem_cons_self t ts)
    have hns : ¬((moveAxis t.pressed).length ≤ 0.01 ∧ (rotateAxis t.pressed).length ≤ 0.01) := by
      rintro ⟨-, h2⟩
      rw [h1] at h2
      norm_num at h2
    simp only [runTicks, List.mem_cons] at hu
    rcases hu with rfl | hu
    · rw [onRedraw_camera]
      exact cameraControl_azimuth_bounds s.camera t.pressed t.dt hns
    · exact ih _ (fun t' ht' => h t' (List.mem_cons_of_mem _ ht')) u hu

/-- Witness for C7 at a concrete input: one tick with only ArrowDown
held (rotation axis `(0, 1)`, magnitude 1). -/
theorem rotation_azimuth_never_hits_poles_witness :
    0.01 ≤ Real.arccos (onRedraw sys37 onlyDown (1/10) true).1.camera.direction.y ∧
    Real.arccos (onRedraw sys37 onlyDown (1/10) true).1.camera.direction.y ≤
      Real.pi - 0.01 :=
  rotation_azimuth_never_hits_poles sys37 [⟨onlyDown, 1/10, true⟩]
    (by
      intro t ht
      simp only [List.mem_cons, List.not_mem_nil, or_false] at ht
      subst ht
      rw [show (⟨onlyDown, 1/10, true⟩ : TickIn).pressed = onlyDown from rfl,
        rotateAxis_onlyDown, length_unit_y2])
    (onRedraw sys37 onlyDown (1/10) true).1 (by simp [runTicks])

/-- C5 (amended): when surface-image acquisition fails, `Render::render`
itself is skipped entirely and leaves the render state untouched (no
pass is recorded, the counter is not advanced), and the tick records no
passes — but updates made earlier in the same tick are not rolled back:
the camera keeps the camera-control output, and the counter ends at 0
exactly when the camera-control block fired (via `set_camera`), else at
its old value.  The next redraw retries. -/
theorem failed_acquisition_skips_render (r : Render) (s : System) (p : Key → Bool) (dt : ℝ) :
    r.render false = (r, none) ∧
    (onRedraw s p dt false).2 = none ∧
    (onRedraw s p dt false).1.camera = (cameraControl s.camera p dt).2 ∧
    (onRedraw s p dt false).1.render.static_frame_index =
      (if (cameraControl s.camera p dt).1 then 0 else s.render.static_frame_index) := by
  refine ⟨rfl, ?_, onRedraw_camera s p dt false, ?_⟩ <;>
    cases h : (cameraControl s.camera p dt).1 <;>
      simp [onRedraw, h, updateRenderCamera, Render.set_camera, Render.render]

end PTr
